import Mathlib

/-!
Verification of the cdx_proxy_cli_v2 rotation engine, trace ring buffer and
rule engine.  The definitions below are a shallow embedding of the Python
sources:
  * `auth/models.py`    → `AuthRecord`, `AuthState` (`available`, `status`)
  * `auth/rotation.py`  → `RoundRobinAuthPool` and its transition helpers
  * `observability/trace_store.py` → `TraceStore` (plus a heap-based variant
    used to reason about aliasing of the mutable Python dicts)
  * `proxy/rules.py`    → `rewrite_request_path`
Wall-clock times (Python floats) are modelled as integer second counts: every
arithmetic operation the embedded code performs on times (comparison, `max`,
adding an integral number of seconds) is exact on such values, so no floating
point rounding has to be modelled.  Python ints are unbounded, hence `Int`/`Nat`
with no wrap-around.
-/

/-- Module-level constant from `auth/rotation.py`. -/
def DEFAULT_COOLDOWN_SECONDS : Nat := 30

/-- Module-level constant from `auth/rotation.py`. -/
def DEFAULT_TRANSIENT_COOLDOWN_SECONDS : Nat := 8

/-- Module-level constant from `auth/rotation.py`. -/
def DEFAULT_BLACKLIST_SECONDS : Nat := 15 * 60

/-- Module-level constant from `auth/rotation.py`. -/
def MAX_COOLDOWN_SECONDS : Nat := 15 * 60

/-- Module-level constant from `auth/rotation.py`. -/
def MAX_BLACKLIST_SECONDS : Nat := 6 * 60 * 60

/-- Module-level constant from `auth/rotation.py`. -/
def PROBATION_PROBE_INTERVAL_SECONDS : Nat := 20

/-- Module-level constant from `auth/rotation.py`. -/
def PROBATION_SUCCESS_TARGET : Nat := 2

/-- `AuthRecord` from `auth/models.py` (frozen dataclass). -/
structure AuthRecord where
  name : String
  path : String
  token : String
  email : Option String := none
  account_id : Option String := none
deriving DecidableEq, Repr

/-- `AuthState` from `auth/models.py` (mutable dataclass) with its field
defaults. -/
structure AuthState where
  record : AuthRecord
  cooldown_until : ℤ := 0
  blacklist_until : ℤ := 0
  blacklist_reason : Option String := none
  probation_successes : Nat := 2
  probation_target : Nat := 2
  next_probe_after : ℤ := 0
  used : Nat := 0
  errors : Nat := 0
  rate_limit_strikes : Nat := 0
  hard_failures : Nat := 0
deriving DecidableEq, Repr

/-- `AuthState.available` from `auth/models.py`. -/
def AuthState.available (s : AuthState) (now : ℤ) : Bool :=
  if now < s.blacklist_until then false
  else if now < s.cooldown_until then false
  else if s.probation_successes < s.probation_target ∧ now < s.next_probe_after then false
  else true

/-- `AuthState.status` from `auth/models.py`. -/
def AuthState.status (s : AuthState) (now : ℤ) : String :=
  if now < s.blacklist_until then "BLACKLIST"
  else if now < s.cooldown_until then "COOLDOWN"
  else if s.probation_successes < s.probation_target then
    if now < s.next_probe_after then "BLACKLIST" else "PROBATION"
  else "OK"

/-- Python `x or default` on an optional string (`None` and `""` are falsy),
as used for the blacklist reason in `mark_result`. -/
def orElseStr (x : Option String) (d : String) : String :=
  match x with
  | some s => if s = "" then d else s
  | none => d

/-- `RoundRobinAuthPool._mark_success` from `auth/rotation.py`. -/
def markSuccess (s : AuthState) (now : ℤ) : AuthState :=
  let s := { s with cooldown_until := 0, rate_limit_strikes := 0 }
  if s.probation_successes < s.probation_target then
    let s := { s with probation_successes := s.probation_successes + 1 }
    if s.probation_target ≤ s.probation_successes then
      { s with blacklist_until := 0, blacklist_reason := none, next_probe_after := 0 }
    else s
  else if s.blacklist_until ≤ now then
    { s with blacklist_reason := none }
  else s

/-- `RoundRobinAuthPool._rate_limit_cooldown_seconds` from `auth/rotation.py`
(for a `Nat` argument, Python's `max(strikes - 1, 0)` is truncated
subtraction). -/
def rateLimitCooldownSeconds (strikes : Nat) : Nat :=
  min MAX_COOLDOWN_SECONDS (DEFAULT_COOLDOWN_SECONDS * 2 ^ (min (strikes - 1) 6))

/-- The blacklist ttl computed inline by `RoundRobinAuthPool._mark_blacklist`:
`min(MAX_BLACKLIST_SECONDS, DEFAULT_BLACKLIST_SECONDS * 2 ** min(max(hf - 1, 0), 4))`. -/
def blacklistTtlSeconds (hard_failures : Nat) : Nat :=
  min MAX_BLACKLIST_SECONDS (DEFAULT_BLACKLIST_SECONDS * 2 ^ (min (hard_failures - 1) 4))

/-- `RoundRobinAuthPool._mark_blacklist` from `auth/rotation.py`. -/
def markBlacklist (s : AuthState) (now : ℤ) (reason : String) : AuthState :=
  let s := { s with errors := s.errors + 1, hard_failures := s.hard_failures + 1 }
  let ttl := blacklistTtlSeconds s.hard_failures
  let bl := max s.blacklist_until (now + ((max 1 ttl : Nat) : ℤ))
  { s with blacklist_until := bl,
           blacklist_reason := some reason,
           probation_target := PROBATION_SUCCESS_TARGET,
           probation_successes := 0,
           next_probe_after := bl,
           cooldown_until := max s.cooldown_until bl }

/-- `RoundRobinAuthPool._mark_rate_limited` from `auth/rotation.py`. -/
def markRateLimited (s : AuthState) (now : ℤ) (seconds_override : Option Int) : AuthState :=
  let s := { s with errors := s.errors + 1, rate_limit_strikes := s.rate_limit_strikes + 1 }
  let cooldown : Int := seconds_override.getD (rateLimitCooldownSeconds s.rate_limit_strikes : Int)
  let s := { s with cooldown_until := max s.cooldown_until (now + ((max 1 cooldown : Int) : ℤ)) }
  if 5 ≤ s.rate_limit_strikes then markBlacklist s now "rate_limited_persistent" else s

/-- `RoundRobinAuthPool._mark_transient_failure` from `auth/rotation.py`. -/
def markTransient (s : AuthState) (now : ℤ) : AuthState :=
  { s with errors := s.errors + 1,
           cooldown_until := max s.cooldown_until (now + (DEFAULT_TRANSIENT_COOLDOWN_SECONDS : ℤ)) }

/-- The per-state classification performed by the body of
`RoundRobinAuthPool.mark_result` on the matching state (the 500-range, the
{408,409,425} set and the unknown-status fallthrough all call
`_mark_transient_failure`, so they are collapsed into the final branch). -/
def markState (s : AuthState) (now : ℤ) (status : Int)
    (error_code : Option String) (cooldown_seconds : Option Int) : AuthState :=
  if 200 ≤ status ∧ status < 400 then markSuccess s now
  else if status = 401 ∨ status = 403 then
    markBlacklist s now (orElseStr error_code (if status = 401 then "token_invalid" else "forbidden"))
  else if status = 429 then
    markRateLimited s now (cooldown_seconds.map (fun v => max 1 v))
  else markTransient s now

/-- `RoundRobinAuthPool` pool state: the list of token states and the
round-robin cursor (`_states`, `_index`). -/
structure RoundRobinAuthPool where
  states : List AuthState
  index : Nat
deriving DecidableEq, Repr

/-- The `previous.get(record.name)` lookup in `load` (a dict comprehension
over the current states, so the LAST state with a given name wins). -/
def lookupPrevious (states : List AuthState) (name : String) : Option AuthState :=
  states.foldl (fun acc s => if s.record.name = name then some s else acc) none

/-- The per-record body of the `load` loop from `auth/rotation.py`. -/
def loadState (previous : List AuthState) (record : AuthRecord) : AuthState :=
  let state : AuthState := { record := record }
  match lookupPrevious previous record.name with
  | none => state
  | some prev =>
    let state := { state with used := prev.used, errors := prev.errors }
    if prev.record.token = record.token then
      { state with cooldown_until := prev.cooldown_until,
                   blacklist_until := prev.blacklist_until,
                   blacklist_reason := prev.blacklist_reason,
                   probation_successes := prev.probation_successes,
                   probation_target := prev.probation_target,
                   next_probe_after := prev.next_probe_after,
                   rate_limit_strikes := prev.rate_limit_strikes,
                   hard_failures := prev.hard_failures }
    else
      { state with probation_successes := PROBATION_SUCCESS_TARGET,
                   probation_target := PROBATION_SUCCESS_TARGET }

/-- `RoundRobinAuthPool.load` from `auth/rotation.py`. -/
def RoundRobinAuthPool.load (pool : RoundRobinAuthPool) (records : List AuthRecord) :
    RoundRobinAuthPool :=
  let next_states := records.map (loadState pool.states)
  { states := next_states,
    index := if next_states.length ≠ 0 then pool.index % next_states.length else 0 }

/-- The `for state in self._states` loop of `mark_result`: only the first
state with the matching name is updated (every branch returns). -/
def markFirst (auth_name : String) (f : AuthState → AuthState) :
    List AuthState → List AuthState
  | [] => []
  | s :: rest =>
    if s.record.name = auth_name then f s :: rest else s :: markFirst auth_name f rest

/-- `RoundRobinAuthPool.mark_result` from `auth/rotation.py` (`now` is the
`time.time()` read taken under the lock). -/
def RoundRobinAuthPool.mark_result (pool : RoundRobinAuthPool) (now : ℤ)
    (auth_name : String) (status : Int)
    (error_code : Option String := none) (cooldown_seconds : Option Int := none) :
    RoundRobinAuthPool :=
  { pool with
    states := markFirst auth_name
      (fun s => markState s now status error_code cooldown_seconds) pool.states }

/-- `RoundRobinAuthPool.mark_cooldown` from `auth/rotation.py`: the legacy
helper that delegates to `mark_result(auth_name, status=429, cooldown_seconds=seconds)`. -/
def RoundRobinAuthPool.mark_cooldown (pool : RoundRobinAuthPool) (now : ℤ)
    (auth_name : String) (seconds : Int := (DEFAULT_COOLDOWN_SECONDS : Int)) :
    RoundRobinAuthPool :=
  pool.mark_result now auth_name 429 none (some seconds)

/-! ### Trace ring buffer (`observability/trace_store.py`) -/

/-- A JSON-ish dict value (trace events are string-keyed Python dicts whose
values are of mixed type; the `id` stamped by the store is an int). -/
inductive Val where
  | vint (n : Int) : Val
  | vstr (s : String) : Val
deriving DecidableEq, Repr

/-- A Python dict modelled as an association list with unique keys. -/
abbrev Dict := List (String × Val)

/-- First-match lookup in a dict. -/
def dictGet (d : Dict) (k : String) : Option Val :=
  match d with
  | [] => none
  | (k', v) :: rest => if k' = k then some v else dictGet rest k

/-- Python `d[k] = v`: overwrite in place when the key exists (insertion
order preserved), otherwise append at the end. -/
def dictSet (d : Dict) (k : String) (v : Val) : Dict :=
  match d with
  | [] => [(k, v)]
  | (k', v') :: rest => if k' = k then (k, v) :: rest else (k', v') :: dictSet rest k v

/-- `TraceStore` state: capacity, buffered events (oldest first) and the
sequence counter. -/
structure TraceStore where
  max_size : Nat
  items : List Dict
  seq : Nat
deriving DecidableEq, Repr

/-- `TraceStore.__init__`: the capacity is clamped to `≥ 1`, the deque starts
empty and the counter at 0. -/
def TraceStore.init (max_size : Int) : TraceStore :=
  { max_size := (max 1 max_size).toNat, items := [], seq := 0 }

/-- `TraceStore.add`: bump the counter, stamp `id` into a copy of the event,
append, and let the bounded deque evict from the left when over capacity.
Returns the stored payload together with the new store. -/
def TraceStore.add (ts : TraceStore) (event : Dict) : Dict × TraceStore :=
  let seq := ts.seq + 1
  let payload := dictSet event "id" (Val.vint seq)
  let appended := ts.items ++ [payload]
  let items := if ts.max_size < appended.length
    then appended.drop (appended.length - ts.max_size) else appended
  (payload, { ts with seq := seq, items := items })

/-- `TraceStore.list`: a snapshot of the buffer; a positive `limit` keeps only
the last `limit` items. -/
def TraceStore.listItems (ts : TraceStore) (limit : Int := 0) : List Dict :=
  if 0 < limit then (ts.items.reverse.take limit.toNat).reverse else ts.items

/-- Folding a sequence of `add` calls, collecting the returned payloads. -/
def addAll (ts : TraceStore) : List Dict → List Dict × TraceStore
  | [] => ([], ts)
  | e :: rest =>
    let p := ts.add e
    let r := addAll p.2 rest
    (p.1 :: r.1, r.2)

/-! #### Heap model for the aliasing behaviour of `add`/`list`

Python dicts and the snapshot list are mutable objects; to state claims about
mutation we give `TraceStore` a small heap: addresses are indices into a list
of objects, an object is a dict or a list of addresses.  `dict(event)`
allocates a fresh dict; `list(self._items)` allocates a fresh list. -/

/-- A heap object: a trace-event dict or a list of addresses. -/
inductive Obj where
  | dict (d : Dict) : Obj
  | arr (l : List Nat) : Obj
deriving DecidableEq, Repr

/-- The heap: object at address `a` is the `a`-th entry. -/
abbrev Heap := List Obj

/-- Read the dict at an address (empty dict when the address is absent or
holds a list). -/
def getDict (h : Heap) (a : Nat) : Dict :=
  match h.getD a (Obj.dict []) with
  | Obj.dict d => d
  | Obj.arr _ => []

/-- Read the address list at an address. -/
def getArr (h : Heap) (a : Nat) : List Nat :=
  match h.getD a (Obj.dict []) with
  | Obj.dict _ => []
  | Obj.arr l => l

/-- Overwrite the object at an address. -/
def heapSet (h : Heap) (a : Nat) (o : Obj) : Heap := h.set a o

/-- Heap-level `TraceStore`: the deque lives at `itemsRef` and holds addresses
of stored payload dicts. -/
structure TraceStoreH where
  max_size : Nat
  itemsRef : Nat
  seq : Nat
deriving DecidableEq, Repr

/-- Heap-level `TraceStore.add` on the dict at address `r`:
`payload = dict(event)` allocates a fresh dict at the end of the heap,
`payload["id"] = seq` stamps the copy, and the deque object is updated in
place.  Returns the address of the stored payload, the new heap and the new
store. -/
def TraceStoreH.add (ts : TraceStoreH) (h : Heap) (r : Nat) :
    Nat × Heap × TraceStoreH :=
  let seq := ts.seq + 1
  let payload := dictSet (getDict h r) "id" (Val.vint seq)
  let pr := h.length
  let h1 := h ++ [Obj.dict payload]
  let appended := getArr h1 ts.itemsRef ++ [pr]
  let items := if ts.max_size < appended.length
    then appended.drop (appended.length - ts.max_size) else appended
  (pr, heapSet h1 ts.itemsRef (Obj.arr items), { ts with seq := seq })

/-- Heap-level `TraceStore.list` (no limit): `list(self._items)` allocates a
fresh list object holding the same addresses.  Returns the address of the
snapshot and the new heap. -/
def TraceStoreH.listItems (ts : TraceStoreH) (h : Heap) : Nat × Heap :=
  (h.length, h ++ [Obj.arr (getArr h ts.itemsRef)])

/-! ### Rule engine (`proxy/rules.py`) -/

/-- `CHATGPT_HOSTS` from `proxy/rules.py`. -/
def CHATGPT_HOSTS : List (List Char) :=
  ["chatgpt.com".toList, "chat.openai.com".toList]

/-- `PATH_REWRITE_PATTERNS` from `proxy/rules.py` (ordered). -/
def PATH_REWRITE_PATTERNS : List (List Char × List Char) :=
  [("/v1/responses/compact".toList, "/codex/responses/compact".toList),
   ("/responses/compact".toList, "/codex/responses/compact".toList),
   ("/v1/responses".toList, "/codex/responses".toList),
   ("/responses".toList, "/codex/responses".toList)]

/-- Python `str.lower()` (ASCII suffices for the host names involved). -/
def pyLower (s : List Char) : List Char := s.map Char.toLower

/-- Python `str.rstrip("/")`. -/
def rstripSlash (s : List Char) : List Char :=
  (s.reverse.dropWhile (fun c => c = '/')).reverse

/-- The `for old_pre, new_pre in PATH_REWRITE_PATTERNS` loop of
`rewrite_request_path`: first matching pattern wins, the suffix after the
matched pattern is preserved; no match leaves the path unchanged. -/
def applyPatterns : List (List Char × List Char) → List Char → List Char
  | [], p => p
  | (oldPre, newPre) :: rest, p =>
    if oldPre.isPrefixOf p then newPre ++ p.drop oldPre.length
    else applyPatterns rest p

/-- `rewrite_request_path` from `proxy/rules.py`. -/
def rewrite_request_path (req_path : List Char) (upstream_host : Option (List Char))
    (upstream_base_path : List Char) : List Char :=
  let host := pyLower (upstream_host.getD [])
  if host ∈ CHATGPT_HOSTS then
    if rstripSlash upstream_base_path = "/backend-api".toList then
      applyPatterns PATH_REWRITE_PATTERNS req_path
    else req_path
  else req_path

/-! ### Derived definitions used by the statements -/

/-- Successive `mark_result` outcomes applied to a single token state: each
call carries its own `time.time()` reading and upstream status, and acts on
the state through the per-state classification `markState`. -/
def runCalls (s : AuthState) (calls : List (ℤ × Int)) : AuthState :=
  calls.foldl (fun t c => markState t c.1 c.2 none none) s

/-! ### Concrete fixtures for witnesses and counterexamples -/

/-- A token record fixture. -/
def wRecord : AuthRecord := { name := "a.json", path := "/tmp/a.json", token := "tok-a" }

/-- A freshly loaded state. -/
def wFresh : AuthState := { record := wRecord }

/-- A state with four accumulated rate-limit strikes. -/
def wStrikes4 : AuthState := { record := wRecord, rate_limit_strikes := 4, errors := 7 }

/-- A state with five accumulated hard failures. -/
def wHard5 : AuthState := { record := wRecord, hard_failures := 5 }

/-- A state hard-blacklisted at t = 1000 by a 401 (in probation afterwards). -/
def wProbation : AuthState := markState wFresh 1000 401 none none

/-- Two successful probes after the blacklist of `wProbation` expires. -/
def wCalls : List (ℤ × Int) := [(1901, 200), (1922, 204)]

/-- A one-token pool holding `wFresh`. -/
def wPool : RoundRobinAuthPool := { states := [wFresh], index := 0 }

/-- A one-token pool holding `wStrikes4`. -/
def wPool4 : RoundRobinAuthPool := { states := [wStrikes4], index := 0 }

/-- A one-token pool holding the blacklisted `wProbation`. -/
def wPoolBad : RoundRobinAuthPool := { states := [wProbation], index := 0 }

/-- The record of `wRecord`'s name carrying a refreshed token. -/
def wRecordNew : AuthRecord := { name := "a.json", path := "/tmp/a.json", token := "tok-new" }

/-- A heap with one caller-owned event dict (address 0) and the store's
deque (address 1). -/
def wHeap : Heap := [Obj.dict [("status", Val.vint 200)], Obj.arr []]

/-- A heap-level trace store whose deque lives at address 1. -/
def wTraceH : TraceStoreH := { max_size := 2, itemsRef := 1, seq := 0 }

/-! ## Shared lemmas -/

/-- Every non-override rate-limit cooldown is at least 30 seconds. -/
theorem thirty_le_rateLimitCooldownSeconds (k : Nat) : 30 ≤ rateLimitCooldownSeconds k := by
  unfold rateLimitCooldownSeconds MAX_COOLDOWN_SECONDS DEFAULT_COOLDOWN_SECONDS
  have hq : 1 ≤ 2 ^ (min (k - 1) 6) := Nat.one_le_two_pow
  omega

/-- Every blacklist ttl is at least 900 seconds. -/
theorem nineHundred_le_blacklistTtlSeconds (k : Nat) : 900 ≤ blacklistTtlSeconds k := by
  unfold blacklistTtlSeconds MAX_BLACKLIST_SECONDS DEFAULT_BLACKLIST_SECONDS
  have hq : 1 ≤ 2 ^ (min (k - 1) 4) := Nat.one_le_two_pow
  omega

/-- The blacklist ttl plateaus at 14400 seconds. -/
theorem blacklistTtlSeconds_le (k : Nat) : blacklistTtlSeconds k ≤ 14400 := by
  unfold blacklistTtlSeconds MAX_BLACKLIST_SECONDS DEFAULT_BLACKLIST_SECONDS
  have hq : 2 ^ (min (k - 1) 4) ≤ 2 ^ 4 :=
    Nat.pow_le_pow_right (by norm_num) (min_le_right _ _)
  omega

/-- `mark_result` with a success status (2xx/3xx) acts as `_mark_success`. -/
theorem markState_success (s : AuthState) (now : ℤ) (st : Int)
    (ec : Option String) (cs : Option Int) (h1 : 200 ≤ st) (h2 : st < 400) :
    markState s now st ec cs = markSuccess s now := by
  unfold markState
  rw [if_pos ⟨h1, h2⟩]

/-- `mark_result` with status 429 acts as `_mark_rate_limited` with the
clamped override. -/
theorem markState_429 (s : AuthState) (now : ℤ) (ec : Option String) (cs : Option Int) :
    markState s now 429 ec cs = markRateLimited s now (cs.map fun v => max 1 v) := rfl

/-- `mark_result` with status 401 and no error code acts as `_mark_blacklist`
with reason `token_invalid`. -/
theorem markState_401 (s : AuthState) (now : ℤ) (cs : Option Int) :
    markState s now 401 none cs = markBlacklist s now "token_invalid" := rfl

/-! ## C1 -/

/-- C1: for every token state and every time `t`, `available(t)` returns true
iff `t ≥ blacklist_until` and `t ≥ cooldown_until` and
(`probation_successes ≥ probation_target` or `t ≥ next_probe_after`). -/
theorem available_iff (s : AuthState) (t : ℤ) :
    s.available t = true ↔
      s.blacklist_until ≤ t ∧ s.cooldown_until ≤ t ∧
        (s.probation_target ≤ s.probation_successes ∨ s.next_probe_after ≤ t) := by
  unfold AuthState.available
  split_ifs with h1 h2 h3 <;> simp <;> omega

/-! ## C3 -/

/-- C3 counterexample: on the 429 that takes `rate_limit_strikes` from 4 to 5
(table cooldown 480 s), the strike also triggers the hard blacklist, which
raises `cooldown_until` to the fresh `blacklist_until` (900 s); the final
`cooldown_until` is 900, not `max(current, now + cooldown) = 480`. -/
theorem rate_limit_cooldown_claim_counterexample :
    wStrikes4.rate_limit_strikes + 1 = 5 ∧
    rateLimitCooldownSeconds 5 = 480 ∧
    (markState wStrikes4 0 429 none none).cooldown_until = 900 ∧
    (markState wStrikes4 0 429 none none).cooldown_until ≠
      max wStrikes4.cooldown_until
        (0 + (rateLimitCooldownSeconds (wStrikes4.rate_limit_strikes + 1) : ℤ)) := by
  decide

/-- C3 (amended): on a 429 with no override the computed cooldown for
`rate_limit_strikes` 1..7 (after the increment) is exactly
{30, 60, 120, 240, 480, 900, 900} seconds; the rate-limit step extends
`cooldown_until` to the max of its current value and `now + cooldown`, and
that is the final value when the new strike count is below 5; at 5 strikes or
more the hard-blacklist transition additionally raises `cooldown_until` to the
resulting `blacklist_until`. -/
theorem rate_limit_cooldown_schedule :
    (rateLimitCooldownSeconds 1 = 30 ∧ rateLimitCooldownSeconds 2 = 60 ∧
     rateLimitCooldownSeconds 3 = 120 ∧ rateLimitCooldownSeconds 4 = 240 ∧
     rateLimitCooldownSeconds 5 = 480 ∧ rateLimitCooldownSeconds 6 = 900 ∧
     rateLimitCooldownSeconds 7 = 900) ∧
    ∀ (s : AuthState) (now : ℤ),
      (s.rate_limit_strikes + 1 < 5 →
        (markState s now 429 none none).cooldown_until
          = max s.cooldown_until
              (now + (rateLimitCooldownSeconds (s.rate_limit_strikes + 1) : ℤ))) ∧
      (5 ≤ s.rate_limit_strikes + 1 →
        (markState s now 429 none none).cooldown_until
          = max (max s.cooldown_until
                  (now + (rateLimitCooldownSeconds (s.rate_limit_strikes + 1) : ℤ)))
              ((markState s now 429 none none).blacklist_until)) := by
  refine ⟨by decide, ?_⟩
  intro s now
  have h30 := thirty_le_rateLimitCooldownSeconds (s.rate_limit_strikes + 1)
  have hmax : max (1 : Int) ((rateLimitCooldownSeconds (s.rate_limit_strikes + 1) : Nat) : Int)
      = ((rateLimitCooldownSeconds (s.rate_limit_strikes + 1) : Nat) : Int) := by omega
  rw [markState_429]
  simp only [Option.map_none', markRateLimited, Option.getD_none]
  constructor
  · intro h
    rw [if_neg (by simpa using by omega : ¬ 5 ≤ s.rate_limit_strikes + 1)]
    simp [hmax]
  · intro h
    rw [if_pos (by simpa using h)]
    simp only [markBlacklist, hmax]

/-- C3 witness: a fresh state (`rate_limit_strikes = 0`) hit by a 429. -/
theorem rate_limit_cooldown_schedule_witness :
    wFresh.rate_limit_strikes + 1 < 5 ∧
    (markState wFresh 0 429 none none).cooldown_until
      = max wFresh.cooldown_until
          (0 + (rateLimitCooldownSeconds (wFresh.rate_limit_strikes + 1) : ℤ)) :=
  ⟨by decide, (rate_limit_cooldown_schedule.2 wFresh 0).1 (by decide)⟩

/-! ## C4 -/

/-- C4 counterexample: on the hard-blacklist transition that takes
`hard_failures` from 5 to 6 the ttl is 14400 s (the power is capped at
`2^4`, so `900·16 = 14400` and the 6-hour cap never binds), not the 21600 s
the claim's table states. -/
theorem blacklist_ttl_claim_counterexample :
    wHard5.hard_failures + 1 = 6 ∧
    (markState wHard5 0 401 none none).blacklist_until = 14400 ∧
    (markState wHard5 0 401 none none).blacklist_until ≠
      max wHard5.blacklist_until (0 + (21600 : ℤ)) := by
  decide

/-- C4 (amended): on each hard-blacklist transition with `hard_failures` 1..6
(after the increment) the blacklist ttl is exactly
{900, 1800, 3600, 7200, 14400, 14400} seconds — the formula
`min(6 h, 15 min · 2^min(hard_failures−1, 4))` plateaus at 14400 s (4 h), so
the nominal 6-hour cap is never reached — and `blacklist_until` is extended to
the max of its current value and `now + ttl`. -/
theorem blacklist_ttl_schedule :
    (blacklistTtlSeconds 1 = 900 ∧ blacklistTtlSeconds 2 = 1800 ∧
     blacklistTtlSeconds 3 = 3600 ∧ blacklistTtlSeconds 4 = 7200 ∧
     blacklistTtlSeconds 5 = 14400 ∧ blacklistTtlSeconds 6 = 14400 ∧
     (∀ k : Nat, blacklistTtlSeconds k ≤ 14400)) ∧
    ∀ (s : AuthState) (now : ℤ) (reason : String),
      (markBlacklist s now reason).blacklist_until
        = max s.blacklist_until (now + (blacklistTtlSeconds (s.hard_failures + 1) : ℤ)) := by
  refine ⟨⟨by decide, by decide, by decide, by decide, by decide, by decide,
    blacklistTtlSeconds_le⟩, ?_⟩
  intro s now reason
  have h900 := nineHundred_le_blacklistTtlSeconds (s.hard_failures + 1)
  have hmax : max (1 : Nat) (blacklistTtlSeconds (s.hard_failures + 1))
      = blacklistTtlSeconds (s.hard_failures + 1) := by omega
  simp only [markBlacklist, hmax]

/-! ## C2 -/

/-- A success while still in probation increments `probation_successes`,
keeps the target, clears the cooldown, and — exactly when the incremented
count reaches the target — clears the blacklist fields. -/
theorem markSuccess_probation (s : AuthState) (now : ℤ)
    (h : s.probation_successes < s.probation_target) :
    (markSuccess s now).probation_successes = s.probation_successes + 1 ∧
    (markSuccess s now).probation_target = s.probation_target ∧
    (markSuccess s now).cooldown_until = 0 ∧
    (s.probation_target ≤ s.probation_successes + 1 →
      (markSuccess s now).blacklist_until = 0 ∧
      (markSuccess s now).blacklist_reason = none ∧
      (markSuccess s now).next_probe_after = 0) ∧
    (s.probation_successes + 1 < s.probation_target →
      (markSuccess s now).blacklist_until = s.blacklist_until ∧
      (markSuccess s now).blacklist_reason = s.blacklist_reason ∧
      (markSuccess s now).next_probe_after = s.next_probe_after) := by
  simp only [markSuccess]
  split_ifs with hp hq <;> simp_all

/-- A success on a state past probation with no pending blacklist and no
pending timers leaves it past probation with everything still cleared. -/
theorem markSuccess_good (s : AuthState) (now : ℤ)
    (h1 : s.probation_target ≤ s.probation_successes)
    (h2 : s.blacklist_until = 0) (h3 : s.blacklist_reason = none)
    (h4 : s.next_probe_after = 0) :
    (markSuccess s now).probation_target ≤ (markSuccess s now).probation_successes ∧
    (markSuccess s now).blacklist_until = 0 ∧
    (markSuccess s now).blacklist_reason = none ∧
    (markSuccess s now).next_probe_after = 0 ∧
    (markSuccess s now).cooldown_until = 0 := by
  simp only [markSuccess]
  split_ifs with h5 h6 <;> simp_all <;> omega

/-- Folding further 2xx results over a recovered state keeps it recovered. -/
theorem runCalls_preserves_good (calls : List (ℤ × Int)) :
    ∀ s : AuthState, (∀ c ∈ calls, 200 ≤ c.2 ∧ c.2 < 300) →
    s.probation_target ≤ s.probation_successes →
    s.blacklist_until = 0 → s.blacklist_reason = none →
    s.next_probe_after = 0 → s.cooldown_until = 0 →
    ((runCalls s calls).probation_target ≤ (runCalls s calls).probation_successes ∧
     (runCalls s calls).blacklist_until = 0 ∧
     (runCalls s calls).blacklist_reason = none ∧
     (runCalls s calls).next_probe_after = 0 ∧
     (runCalls s calls).cooldown_until = 0) := by
  induction calls with
  | nil =>
    intro s _ h1 h2 h3 h4 h5
    exact ⟨h1, h2, h3, h4, h5⟩
  | cons c rest ih =>
    intro s hst h1 h2 h3 h4 h5
    have hc := hst c (List.mem_cons_self c rest)
    have hrw : runCalls s (c :: rest) = runCalls (markSuccess s c.1) rest := by
      simp only [runCalls, List.foldl_cons]
      rw [markState_success s c.1 c.2 none none hc.1 (by omega)]
    rw [hrw]
    have hg := markSuccess_good s c.1 h1 h2 h3 h4
    exact ih (markSuccess s c.1) (fun d hd => hst d (List.mem_cons_of_mem c hd))
      hg.1 hg.2.1 hg.2.2.1 hg.2.2.2.1 hg.2.2.2.2

/-- From a state in probation, enough successive 2xx results (at least
`target − successes` of them) recover the state: past probation, blacklist
fields and timers cleared. -/
theorem runCalls_recovers (calls : List (ℤ × Int)) :
    ∀ s : AuthState, (∀ c ∈ calls, 200 ≤ c.2 ∧ c.2 < 300) →
    s.probation_successes < s.probation_target →
    s.probation_target ≤ s.probation_successes + calls.length →
    ((runCalls s calls).probation_target ≤ (runCalls s calls).probation_successes ∧
     (runCalls s calls).blacklist_until = 0 ∧
     (runCalls s calls).blacklist_reason = none ∧
     (runCalls s calls).next_probe_after = 0 ∧
     (runCalls s calls).cooldown_until = 0) := by
  induction calls with
  | nil =>
    intro s _ h1 h2
    simp at h2
    omega
  | cons c rest ih =>
    intro s hst h1 h2
    have hc := hst c (List.mem_cons_self c rest)
    have hrw : runCalls s (c :: rest) = runCalls (markSuccess s c.1) rest := by
      simp only [runCalls, List.foldl_cons]
      rw [markState_success s c.1 c.2 none none hc.1 (by omega)]
    rw [hrw]
    have hp := markSuccess_probation s c.1 h1
    have hrest : ∀ d ∈ rest, 200 ≤ d.2 ∧ d.2 < 300 :=
      fun d hd => hst d (List.mem_cons_of_mem c hd)
    by_cases hreach : s.probation_target ≤ s.probation_successes + 1
    · have hcl := hp.2.2.2.1 hreach
      exact runCalls_preserves_good rest (markSuccess s c.1) hrest
        (by omega) hcl.1 hcl.2.1 hcl.2.2 hp.2.2.1
    · have := ih (markSuccess s c.1) hrest (by omega)
        (by simp only [hp.1, hp.2.1] at *; simp at h2; omega)
      exact this

/-- A recovered state reports status `OK` at every non-negative time. -/
theorem status_OK_of_good (s : AuthState) (now : ℤ) (h0 : 0 ≤ now)
    (h1 : s.probation_target ≤ s.probation_successes)
    (h2 : s.blacklist_until = 0) (h3 : s.cooldown_until = 0) :
    s.status now = "OK" := by
  unfold AuthState.status
  rw [if_neg (by omega), if_neg (by omega), if_neg (by omega)]

/-- C2: a token state in probation returns to `OK` after exactly
`probation_target` successive 2xx `mark_result` outcomes: the resulting state
has `blacklist_until`, `blacklist_reason` and `next_probe_after` cleared and
`status(now) = "OK"`; moreover on the very success that makes
`probation_successes` reach `probation_target` those three fields are cleared
and the status is already `OK`. -/
theorem probation_recovery (s : AuthState) (calls : List (ℤ × Int)) (now : ℤ)
    (h2xx : ∀ c ∈ calls, 200 ≤ c.2 ∧ c.2 < 300)
    (hprob : s.probation_successes < s.probation_target)
    (hlen : calls.length = s.probation_target)
    (hnow : 0 ≤ now) :
    ((runCalls s calls).blacklist_until = 0 ∧
     (runCalls s calls).blacklist_reason = none ∧
     (runCalls s calls).next_probe_after = 0 ∧
     (runCalls s calls).status now = "OK") ∧
    (∀ (s' : AuthState) (t : ℤ) (st : Int),
      s'.probation_successes < s'.probation_target →
      s'.probation_target ≤ s'.probation_successes + 1 →
      200 ≤ st → st < 300 → 0 ≤ t →
      (markState s' t st none none).blacklist_until = 0 ∧
      (markState s' t st none none).blacklist_reason = none ∧
      (markState s' t st none none).next_probe_after = 0 ∧
      (markState s' t st none none).status t = "OK") := by
  constructor
  · have hg := runCalls_recovers calls s h2xx hprob (by omega)
    exact ⟨hg.2.1, hg.2.2.1, hg.2.2.2.1,
      status_OK_of_good _ now hnow hg.1 hg.2.1 hg.2.2.2.2⟩
  · intro s' t st hp hr hst1 hst2 ht
    rw [markState_success s' t st none none hst1 (by omega)]
    have hq := markSuccess_probation s' t hp
    have hcl := hq.2.2.2.1 hr
    exact ⟨hcl.1, hcl.2.1, hcl.2.2,
      status_OK_of_good _ t ht (by omega) hcl.1 hq.2.2.1⟩

/-- C2 witness: the state blacklisted at t = 1000 by a 401 (successes 0,
target 2) recovers after the two successful probes of `wCalls`. -/
theorem probation_recovery_witness :
    ((∀ c ∈ wCalls, 200 ≤ c.2 ∧ c.2 < 300) ∧
     wProbation.probation_successes < wProbation.probation_target ∧
     wCalls.length = wProbation.probation_target ∧ (0 : ℤ) ≤ 1922) ∧
    ((runCalls wProbation wCalls).blacklist_until = 0 ∧
     (runCalls wProbation wCalls).blacklist_reason = none ∧
     (runCalls wProbation wCalls).next_probe_after = 0 ∧
     (runCalls wProbation wCalls).status 1922 = "OK") :=
  ⟨⟨by decide, by decide, by decide, by decide⟩,
   (probation_recovery wProbation wCalls 1922 (by decide) (by decide)
     (by decide) (by decide)).1⟩

/-! ## C5 -/

/-- C5: when `load` meets a record whose name has a prior state but whose
token differs, only `used` and `errors` are carried over; timers, strikes,
hard failures and the blacklist reason are cleared, probation is reset to
`successes = target = 2`, so the new state is available at every non-negative
time.  The last conjunct ties the per-record merge to `load` itself. -/
theorem load_token_replacement (previous : List AuthState) (record : AuthRecord)
    (prev : AuthState) (hlook : lookupPrevious previous record.name = some prev)
    (htok : ¬ prev.record.token = record.token) :
    (loadState previous record).used = prev.used ∧
    (loadState previous record).errors = prev.errors ∧
    (loadState previous record).cooldown_until = 0 ∧
    (loadState previous record).blacklist_until = 0 ∧
    (loadState previous record).next_probe_after = 0 ∧
    (loadState previous record).rate_limit_strikes = 0 ∧
    (loadState previous record).hard_failures = 0 ∧
    (loadState previous record).blacklist_reason = none ∧
    (loadState previous record).probation_successes = 2 ∧
    (loadState previous record).probation_target = 2 ∧
    (∀ t : ℤ, 0 ≤ t → (loadState previous record).available t = true) ∧
    (∀ (pool : RoundRobinAuthPool) (records : List AuthRecord),
      (pool.load records).states = records.map (loadState pool.states)) := by
  have h : loadState previous record =
      { record := record, used := prev.used, errors := prev.errors,
        probation_successes := PROBATION_SUCCESS_TARGET,
        probation_target := PROBATION_SUCCESS_TARGET } := by
    simp only [loadState, hlook]
    rw [if_neg htok]
  refine ⟨by simp [h], by simp [h], by simp [h], by simp [h], by simp [h], by simp [h],
    by simp [h], by simp [h], by simp [h, PROBATION_SUCCESS_TARGET],
    by simp [h, PROBATION_SUCCESS_TARGET], ?_, fun pool records => rfl⟩
  intro t ht
  simp only [h, AuthState.available, PROBATION_SUCCESS_TARGET]
  split_ifs <;> first | rfl | omega

/-- C5 witness: reloading the pool whose only state is blacklisted
(`wProbation`) with the same name but the refreshed token `tok-new`. -/
theorem load_token_replacement_witness :
    (lookupPrevious wPoolBad.states wRecordNew.name = some wProbation ∧
     ¬ wProbation.record.token = wRecordNew.token) ∧
    ((loadState wPoolBad.states wRecordNew).used = wProbation.used ∧
     (loadState wPoolBad.states wRecordNew).errors = wProbation.errors ∧
     (loadState wPoolBad.states wRecordNew).cooldown_until = 0 ∧
     (loadState wPoolBad.states wRecordNew).blacklist_until = 0 ∧
     (loadState wPoolBad.states wRecordNew).next_probe_after = 0 ∧
     (loadState wPoolBad.states wRecordNew).rate_limit_strikes = 0 ∧
     (loadState wPoolBad.states wRecordNew).hard_failures = 0 ∧
     (loadState wPoolBad.states wRecordNew).blacklist_reason = none ∧
     (loadState wPoolBad.states wRecordNew).probation_successes = 2 ∧
     (loadState wPoolBad.states wRecordNew).probation_target = 2 ∧
     (loadState wPoolBad.states wRecordNew).available 2000 = true) := by
  have h := load_token_replacement wPoolBad.states wRecordNew wProbation
    (by decide) (by decide)
  exact ⟨⟨by decide, by decide⟩, h.1, h.2.1, h.2.2.1, h.2.2.2.1, h.2.2.2.2.1,
    h.2.2.2.2.2.1, h.2.2.2.2.2.2.1, h.2.2.2.2.2.2.2.1, h.2.2.2.2.2.2.2.2.1,
    h.2.2.2.2.2.2.2.2.2.1,
    h.2.2.2.2.2.2.2.2.2.2.1 2000 (by decide)⟩

/-! ## C9 -/

/-- `markFirst` is the identity when no state carries the name. -/
theorem markFirst_of_not_mem (name : String) (f : AuthState → AuthState) :
    ∀ l : List AuthState, (∀ s ∈ l, s.record.name ≠ name) → markFirst name f l = l := by
  intro l
  induction l with
  | nil => intro _; rfl
  | cons s rest ih =>
    intro h
    unfold markFirst
    rw [if_neg (h s (List.mem_cons_self s rest))]
    rw [ih (fun d hd => h d (List.mem_cons_of_mem s hd))]

/-- C9: `mark_result` with a name that matches no loaded record is a no-op
for every status: the pool (all token states and the round-robin cursor) is
returned unchanged. -/
theorem mark_result_unknown_name (pool : RoundRobinAuthPool) (now : ℤ)
    (auth_name : String) (status : Int) (ec : Option String) (cs : Option Int)
    (h : ∀ s ∈ pool.states, s.record.name ≠ auth_name) :
    pool.mark_result now auth_name status ec cs = pool := by
  unfold RoundRobinAuthPool.mark_result
  rw [markFirst_of_not_mem _ _ _ h]

/-- C9 witness: marking an unknown name on the one-token pool. -/
theorem mark_result_unknown_name_witness :
    (∀ s ∈ wPool.states, s.record.name ≠ "missing.json") ∧
    wPool.mark_result 0 "missing.json" 500 none none = wPool :=
  ⟨by decide, mark_result_unknown_name wPool 0 "missing.json" 500 none none (by decide)⟩

/-! ## C8 -/

/-- C8 counterexample: `mark_cooldown` on a loaded token with 4 prior strikes
raises `errors` by two, not one — the 429 path adds one and the triggered
hard-blacklist adds another (`wStrikes4.errors = 7` becomes 9, not 8). -/
theorem mark_cooldown_errors_counterexample :
    ((wPool4.mark_cooldown 0 "a.json" 60).states.map (fun s => s.errors) = [9]) ∧
    ((wPool4.mark_cooldown 0 "a.json" 60).states.map (fun s => s.errors) ≠ [8]) := by
  decide

/-- C8 (amended): `mark_cooldown(name, seconds)` produces exactly the pool
state of `mark_result(name, status = 429, cooldown_seconds = seconds)`; each
429 outcome on a state increments `rate_limit_strikes`, and increments
`errors` by one when the new strike count stays below 5 (leaving
`blacklist_until` untouched), but by two when it reaches 5 or more, in which
case the state is additionally hard-blacklisted with reason
`rate_limited_persistent`. -/
theorem mark_cooldown_refines (pool : RoundRobinAuthPool) (now : ℤ)
    (auth_name : String) (secs : Int) :
    pool.mark_cooldown now auth_name secs
      = pool.mark_result now auth_name 429 none (some secs) ∧
    ∀ s : AuthState,
      (markState s now 429 none (some secs)).rate_limit_strikes
        = s.rate_limit_strikes + 1 ∧
      (s.rate_limit_strikes + 1 < 5 →
        (markState s now 429 none (some secs)).errors = s.errors + 1 ∧
        (markState s now 429 none (some secs)).blacklist_until = s.blacklist_until) ∧
      (5 ≤ s.rate_limit_strikes + 1 →
        (markState s now 429 none (some secs)).errors = s.errors + 2 ∧
        (markState s now 429 none (some secs)).blacklist_reason
          = some "rate_limited_persistent") := by
  refine ⟨rfl, ?_⟩
  intro s
  rw [markState_429]
  simp only [Option.map_some', markRateLimited, Option.getD_some, markBlacklist]
  constructor
  · split_ifs <;> simp
  constructor
  · intro h
    rw [if_neg (by simpa using by omega : ¬ 5 ≤ s.rate_limit_strikes + 1)]
    simp
  · intro h
    rw [if_pos (by simpa using h)]
    simp

/-- C8 witness: the 429 outcome on the 4-strike state `wStrikes4`. -/
theorem mark_cooldown_refines_witness :
    (5 ≤ wStrikes4.rate_limit_strikes + 1) ∧
    ((markState wStrikes4 0 429 none (some 60)).errors = wStrikes4.errors + 2 ∧
     (markState wStrikes4 0 429 none (some 60)).blacklist_reason
       = some "rate_limited_persistent") :=
  ⟨by decide, ((mark_cooldown_refines wPool4 0 "a.json" 60).2 wStrikes4).2.2 (by decide)⟩

/-! ## C6 -/

/-- Looking up the key just written by `dictSet`. -/
theorem dictGet_dictSet (d : Dict) (k : String) (v : Val) :
    dictGet (dictSet d k v) k = some v := by
  induction d with
  | nil => simp [dictSet, dictGet]
  | cons p rest ih =>
    obtain ⟨k', v'⟩ := p
    by_cases h : k' = k
    · simp [dictSet, dictGet, h]
    · simp [dictSet, dictGet, h, ih]

/-- The ids produced by a run of `add` calls, from an arbitrary counter. -/
theorem addAll_ids (evs : List Dict) :
    ∀ ts : TraceStore,
      (addAll ts evs).1.map (fun d => dictGet d "id")
        = (List.range' (ts.seq + 1) evs.length).map (fun n : Nat => some (Val.vint (Int.ofNat n))) := by
  induction evs with
  | nil => intro ts; simp [addAll]
  | cons e rest ih =>
    intro ts
    show ((ts.add e).1 :: (addAll (ts.add e).2 rest).1).map (fun d => dictGet d "id")
      = (List.range' (ts.seq + 1) (rest.length + 1)).map (fun n : Nat => some (Val.vint (Int.ofNat n)))
    rw [List.range'_succ, List.map_cons, List.map_cons]
    congr 1
    · exact dictGet_dictSet e "id" (Val.vint (ts.seq + 1))
    · have h2 : (ts.add e).2.seq = ts.seq + 1 := rfl
      have := ih (ts.add e).2
      rw [h2] at this
      exact this

/-- C6: over any sequence of `add` calls on a fresh `TraceStore` (any
capacity), the ids stamped into the returned events are exactly
`1, 2, 3, …` in call order — the list `range' 1 n` — with no gaps and no
duplicates, independent of ring-buffer evictions. -/
theorem trace_ids_sequential (max_size : Int) (evs : List Dict) :
    (addAll (TraceStore.init max_size) evs).1.map (fun d => dictGet d "id")
      = (List.range' 1 evs.length).map (fun n : Nat => some (Val.vint (Int.ofNat n))) := by
  have h := addAll_ids evs (TraceStore.init max_size)
  simpa [TraceStore.init] using h

/-! ## C7 -/

/-- No rewrite pattern matches a path that starts with `/codex` (`'/'` then
`'c'`): every pattern's second character is `'v'` or `'r'`. -/
theorem applyPatterns_codex (s : List Char) :
    applyPatterns PATH_REWRITE_PATTERNS ('/' :: 'c' :: s) = '/' :: 'c' :: s := rfl

/-- The pattern loop written out as the four prefix tests, in table order. -/
theorem applyPatterns_characterization (p : List Char) :
    applyPatterns PATH_REWRITE_PATTERNS p =
      if ("/v1/responses/compact".toList).isPrefixOf p then
        "/codex/responses/compact".toList ++ p.drop 21
      else if ("/responses/compact".toList).isPrefixOf p then
        "/codex/responses/compact".toList ++ p.drop 18
      else if ("/v1/responses".toList).isPrefixOf p then
        "/codex/responses".toList ++ p.drop 13
      else if ("/responses".toList).isPrefixOf p then
        "/codex/responses".toList ++ p.drop 10
      else p := rfl

/-- One pass of the pattern loop is idempotent: every rewritten path starts
with `/codex`, which no pattern matches. -/
theorem applyPatterns_idem (p : List Char) :
    applyPatterns PATH_REWRITE_PATTERNS (applyPatterns PATH_REWRITE_PATTERNS p)
      = applyPatterns PATH_REWRITE_PATTERNS p := by
  rw [applyPatterns_characterization p]
  split_ifs with h1 h2 h3 h4
  · have e : "/codex/responses/compact".toList ++ p.drop 21
        = '/' :: 'c' :: ("odex/responses/compact".toList ++ p.drop 21) := rfl
    rw [e]
    exact applyPatterns_codex _
  · have e : "/codex/responses/compact".toList ++ p.drop 18
        = '/' :: 'c' :: ("odex/responses/compact".toList ++ p.drop 18) := rfl
    rw [e]
    exact applyPatterns_codex _
  · have e : "/codex/responses".toList ++ p.drop 13
        = '/' :: 'c' :: ("odex/responses".toList ++ p.drop 13) := rfl
    rw [e]
    exact applyPatterns_codex _
  · have e : "/codex/responses".toList ++ p.drop 10
        = '/' :: 'c' :: ("odex/responses".toList ++ p.drop 10) := rfl
    rw [e]
    exact applyPatterns_codex _
  · rw [applyPatterns_characterization p, if_neg h1, if_neg h2, if_neg h3, if_neg h4]

/-- The path is untouched when the lowercased upstream host is not a chatgpt
host. -/
theorem rewrite_request_path_other_host (p : List Char) (host : Option (List Char))
    (base : List Char) (h : pyLower (host.getD []) ∉ CHATGPT_HOSTS) :
    rewrite_request_path p host base = p := by
  unfold rewrite_request_path
  rw [if_neg h]

/-- The path is untouched when the base path, trailing slashes stripped, is
not `/backend-api`. -/
theorem rewrite_request_path_other_base (p : List Char) (host : Option (List Char))
    (base : List Char) (h : rstripSlash base ≠ "/backend-api".toList) :
    rewrite_request_path p host base = p := by
  unfold rewrite_request_path
  by_cases hh : pyLower (host.getD []) ∈ CHATGPT_HOSTS
  · rw [if_pos hh, if_neg h]
  · rw [if_neg hh]

/-- When both guards hold the function is exactly the pattern loop. -/
theorem rewrite_request_path_chatgpt (p : List Char) (host : Option (List Char))
    (base : List Char) (hh : pyLower (host.getD []) ∈ CHATGPT_HOSTS)
    (hb : rstripSlash base = "/backend-api".toList) :
    rewrite_request_path p host base = applyPatterns PATH_REWRITE_PATTERNS p := by
  unfold rewrite_request_path
  rw [if_pos hh, if_pos hb]

/-- C7 (amended): `rewrite_request_path` rewrites only when the lowercased
upstream host is `chatgpt.com` or `chat.openai.com` and the upstream base
path is `/backend-api` up to trailing slashes (the code strips them before
comparing); in that case it applies the first matching prefix of the ordered
table, preserving the suffix (`applyPatterns`).  Paths that already start
with `/codex/responses` match no prefix and are returned unchanged, and the
rewrite is idempotent on every path. -/
theorem rewrite_request_path_props :
    (∀ (p : List Char) (host : Option (List Char)) (base : List Char),
      pyLower (host.getD []) ∉ CHATGPT_HOSTS → rewrite_request_path p host base = p) ∧
    (∀ (p : List Char) (host : Option (List Char)) (base : List Char),
      rstripSlash base ≠ "/backend-api".toList → rewrite_request_path p host base = p) ∧
    (∀ (p : List Char) (host : Option (List Char)) (base : List Char),
      pyLower (host.getD []) ∈ CHATGPT_HOSTS → rstripSlash base = "/backend-api".toList →
      rewrite_request_path p host base = applyPatterns PATH_REWRITE_PATTERNS p) ∧
    (∀ (tail : List Char) (host : Option (List Char)) (base : List Char),
      rewrite_request_path ("/codex/responses".toList ++ tail) host base
        = "/codex/responses".toList ++ tail) ∧
    (∀ (p : List Char) (host : Option (List Char)) (base : List Char),
      rewrite_request_path (rewrite_request_path p host base) host base
        = rewrite_request_path p host base) := by
  refine ⟨rewrite_request_path_other_host, rewrite_request_path_other_base,
    rewrite_request_path_chatgpt, ?_, ?_⟩
  · intro tail host base
    by_cases hh : pyLower (host.getD []) ∈ CHATGPT_HOSTS
    · by_cases hb : rstripSlash base = "/backend-api".toList
      · rw [rewrite_request_path_chatgpt _ _ _ hh hb]
        have e : "/codex/responses".toList ++ tail
            = '/' :: 'c' :: ("odex/responses".toList ++ tail) := rfl
        rw [e]
        exact applyPatterns_codex _
      · exact rewrite_request_path_other_base _ _ _ hb
    · exact rewrite_request_path_other_host _ _ _ hh
  · intro p host base
    by_cases hh : pyLower (host.getD []) ∈ CHATGPT_HOSTS
    · by_cases hb : rstripSlash base = "/backend-api".toList
      · rw [rewrite_request_path_chatgpt _ _ _ hh hb,
          rewrite_request_path_chatgpt _ _ _ hh hb]
        exact applyPatterns_idem p
      · rw [rewrite_request_path_other_base _ _ _ hb,
          rewrite_request_path_other_base _ _ _ hb]
    · rw [rewrite_request_path_other_host _ _ _ hh,
        rewrite_request_path_other_host _ _ _ hh]

/-- C7 counterexample: with upstream base path `/backend-api/` — not exactly
`/backend-api` — and host `chatgpt.com`, the path is still rewritten: the
code compares the base path only after stripping trailing slashes. -/
theorem rewrite_request_path_counterexample :
    rewrite_request_path "/responses".toList (some "chatgpt.com".toList) "/backend-api/".toList
      = "/codex/responses".toList ∧
    "/backend-api/".toList ≠ "/backend-api".toList ∧
    "/codex/responses".toList ≠ "/responses".toList := by decide

/-- C7 witness: the chatgpt-host branch on `/v1/responses`. -/
theorem rewrite_request_path_props_witness :
    (pyLower ((some "chatgpt.com".toList).getD []) ∈ CHATGPT_HOSTS ∧
     rstripSlash "/backend-api".toList = "/backend-api".toList) ∧
    rewrite_request_path "/v1/responses".toList (some "chatgpt.com".toList)
        "/backend-api".toList
      = applyPatterns PATH_REWRITE_PATTERNS "/v1/responses".toList :=
  ⟨⟨by decide, by decide⟩,
   rewrite_request_path_props.2.2.1 "/v1/responses".toList (some "chatgpt.com".toList)
     "/backend-api".toList (by decide) (by decide)⟩

/-! ## C10 -/

/-- Allocating a new object leaves every existing address unchanged. -/
theorem heapGetD_append_lt (h : Heap) (x : Obj) (a : Nat) (ha : a < h.length) :
    (h ++ [x]).getD a (Obj.dict []) = h.getD a (Obj.dict []) := by
  rw [List.getD_eq_getElem?_getD, List.getD_eq_getElem?_getD, List.getElem?_append_left ha]

/-- Reading back a freshly allocated object. -/
theorem heapGetD_append_self (h : Heap) (x : Obj) :
    (h ++ [x]).getD h.length (Obj.dict []) = x := by
  rw [List.getD_eq_getElem?_getD, List.getElem?_concat_length]
  rfl

/-- Overwriting one address leaves every other address unchanged. -/
theorem heapGetD_set_ne (h : Heap) (a b : Nat) (o : Obj) (hne : a ≠ b) :
    (h.set a o).getD b (Obj.dict []) = h.getD b (Obj.dict []) := by
  rw [List.getD_eq_getElem?_getD, List.getD_eq_getElem?_getD, List.getElem?_set_ne hne]

/-- Reading back an overwritten address. -/
theorem heapGetD_set_self (h : Heap) (a : Nat) (o : Obj) (ha : a < h.length) :
    (h.set a o).getD a (Obj.dict []) = o := by
  rw [List.getD_eq_getElem?_getD, List.getElem?_set_self ha]
  rfl

/-- Dict reads agree on addresses whose raw heap cells agree. -/
theorem getDict_congr {h1 h2 : Heap} {a b : Nat}
    (e : h1.getD a (Obj.dict []) = h2.getD b (Obj.dict [])) :
    getDict h1 a = getDict h2 b := by
  unfold getDict
  rw [e]

/-- List reads agree on addresses whose raw heap cells agree. -/
theorem getArr_congr {h1 h2 : Heap} {a b : Nat}
    (e : h1.getD a (Obj.dict []) = h2.getD b (Obj.dict [])) :
    getArr h1 a = getArr h2 b := by
  unfold getArr
  rw [e]

/-- Reading back the deque contents just written. -/
theorem getArr_set_arr (h : Heap) (a : Nat) (l : List Nat) (ha : a < h.length) :
    getArr (h.set a (Obj.arr l)) a = l := by
  unfold getArr
  rw [heapGetD_set_self _ _ _ ha]

/-- The just-appended element survives the ring buffer's left-eviction
whenever the capacity is at least 1. -/
theorem mem_addItems (arr1 : List Nat) (maxSz : Nat) (hms : 1 ≤ maxSz) (pr : Nat) :
    pr ∈ (if maxSz < (arr1 ++ [pr]).length
          then (arr1 ++ [pr]).drop ((arr1 ++ [pr]).length - maxSz)
          else arr1 ++ [pr]) := by
  split_ifs with hc
  · rw [List.drop_append_of_le_length (by simp; omega)]
    exact List.mem_append_right _ (List.mem_singleton.mpr rfl)
  · exact List.mem_append_right _ (List.mem_singleton.mpr rfl)

/-- C10: on the heap model of `TraceStore.add`, the payload is a fresh copy:
its address is new (in particular distinct from the caller's event dict at
`r`), the caller's dict is left unchanged and still has no `id` key, the
stored/returned payload is `dict(event)` with `id` stamped to the new
sequence number, and it sits in the deque.  `TraceStore.list` then returns a
fresh list object: its address differs from the deque's, and overwriting the
returned list leaves the deque's contents unchanged. -/
theorem trace_add_no_alias (h : Heap) (ts : TraceStoreH) (r : Nat)
    (hr : r < h.length) (hi : ts.itemsRef < h.length) (hir : ts.itemsRef ≠ r)
    (hms : 1 ≤ ts.max_size)
    (hid : dictGet (getDict h r) "id" = none) :
    (TraceStoreH.add ts h r).1 ≠ r ∧
    getDict (TraceStoreH.add ts h r).2.1 r = getDict h r ∧
    dictGet (getDict (TraceStoreH.add ts h r).2.1 r) "id" = none ∧
    getDict (TraceStoreH.add ts h r).2.1 (TraceStoreH.add ts h r).1
      = dictSet (getDict h r) "id" (Val.vint ((ts.seq + 1 : Nat) : Int)) ∧
    (TraceStoreH.add ts h r).1
      ∈ getArr (TraceStoreH.add ts h r).2.1 (TraceStoreH.add ts h r).2.2.itemsRef ∧
    (TraceStoreH.listItems (TraceStoreH.add ts h r).2.2 (TraceStoreH.add ts h r).2.1).1
      ≠ (TraceStoreH.add ts h r).2.2.itemsRef ∧
    (∀ l : List Nat,
      getArr
        (heapSet
          (TraceStoreH.listItems (TraceStoreH.add ts h r).2.2 (TraceStoreH.add ts h r).2.1).2
          (TraceStoreH.listItems (TraceStoreH.add ts h r).2.2 (TraceStoreH.add ts h r).2.1).1
          (Obj.arr l))
        (TraceStoreH.add ts h r).2.2.itemsRef
      = getArr
          (TraceStoreH.listItems (TraceStoreH.add ts h r).2.2 (TraceStoreH.add ts h r).2.1).2
          (TraceStoreH.add ts h r).2.2.itemsRef) := by
  have hpr : (TraceStoreH.add ts h r).1 = h.length := rfl
  have hif : (TraceStoreH.add ts h r).2.2.itemsRef = ts.itemsRef := rfl
  have hlres : (TraceStoreH.listItems (TraceStoreH.add ts h r).2.2 (TraceStoreH.add ts h r).2.1).1
      = (TraceStoreH.add ts h r).2.1.length := rfl
  have hlen21 : (TraceStoreH.add ts h r).2.1.length = h.length + 1 := by
    show ((h ++ [Obj.dict _]).set ts.itemsRef (Obj.arr _)).length = h.length + 1
    simp
  have k2 : getDict (TraceStoreH.add ts h r).2.1 r = getDict h r := by
    apply getDict_congr
    show ((h ++ [Obj.dict _]).set ts.itemsRef (Obj.arr _)).getD r (Obj.dict [])
        = h.getD r (Obj.dict [])
    rw [heapGetD_set_ne _ _ _ _ hir, heapGetD_append_lt _ _ _ hr]
  have k4' : (TraceStoreH.add ts h r).2.1.getD h.length (Obj.dict [])
      = Obj.dict (dictSet (getDict h r) "id" (Val.vint ((ts.seq + 1 : Nat) : Int))) := by
    show ((h ++ [Obj.dict (dictSet (getDict h r) "id" (Val.vint ((ts.seq + 1 : Nat) : Int)))]).set
        ts.itemsRef (Obj.arr _)).getD h.length (Obj.dict []) = _
    rw [heapGetD_set_ne _ _ _ _ (by omega : ts.itemsRef ≠ h.length)]
    exact heapGetD_append_self _ _
  refine ⟨by omega, k2, by rw [k2]; exact hid, ?_, ?_, ?_, ?_⟩
  · rw [hpr]
    unfold getDict
    rw [k4']
    rfl
  · rw [hpr, hif]
    show h.length ∈ getArr ((h ++ [Obj.dict _]).set ts.itemsRef (Obj.arr
      (if ts.max_size < ((getArr (h ++ [Obj.dict _]) ts.itemsRef) ++ [h.length]).length
        then ((getArr (h ++ [Obj.dict _]) ts.itemsRef) ++ [h.length]).drop
          (((getArr (h ++ [Obj.dict _]) ts.itemsRef) ++ [h.length]).length - ts.max_size)
        else (getArr (h ++ [Obj.dict _]) ts.itemsRef) ++ [h.length]))) ts.itemsRef
    rw [getArr_set_arr _ _ _ (by simp; omega)]
    exact mem_addItems _ _ hms _
  · rw [hlres, hlen21, hif]
    omega
  · intro l
    apply getArr_congr
    exact heapGetD_set_ne _ _ _ _ (by rw [hlres, hlen21, hif]; omega)

/-- C10 witness: the two-object heap `wHeap` (caller's dict at 0, deque at
address 1) and the store `wTraceH`. -/
theorem trace_add_no_alias_witness :
    (0 < wHeap.length ∧ wTraceH.itemsRef < wHeap.length ∧ wTraceH.itemsRef ≠ 0 ∧
     1 ≤ wTraceH.max_size ∧ dictGet (getDict wHeap 0) "id" = none) ∧
    ((TraceStoreH.add wTraceH wHeap 0).1 ≠ 0 ∧
     getDict (TraceStoreH.add wTraceH wHeap 0).2.1 0 = getDict wHeap 0 ∧
     dictGet (getDict (TraceStoreH.add wTraceH wHeap 0).2.1 0) "id" = none ∧
     getDict (TraceStoreH.add wTraceH wHeap 0).2.1 (TraceStoreH.add wTraceH wHeap 0).1
       = dictSet (getDict wHeap 0) "id" (Val.vint ((wTraceH.seq + 1 : Nat) : Int))) := by
  have h := trace_add_no_alias wHeap wTraceH 0 (by decide) (by decide) (by decide)
    (by decide) (by decide)
  exact ⟨⟨by decide, by decide, by decide, by decide, by decide⟩,
    h.1, h.2.1, h.2.2.1, h.2.2.2.1⟩
